import Mathlib

/-!
Verification development for the tracktagger program (src/tracktagger.py).

The Python program is shallowly embedded below.  Paths (`pathlib.Path`)
are represented by their `parts` tuple, i.e. a `List String` whose head is
the string "/" exactly when the path is absolute, matching Python's
`Path.parts` representation (so Lean equality of the representation agrees
with Python `Path` equality).  Python dictionaries are represented by
insertion-ordered association lists; dictionary values appearing in the
metadata records (strings, ints, `None`, `Path`) are represented by the
`MValue` sum.  Fallible code (raised exceptions) is modelled with
`Except String`.  External effects (filesystem queries, archive
extraction, subprocess exit codes, `tempfile` names, `Path.resolve`) are
supplied as explicit oracle parameters, so every definition stays
executable once concrete oracles are given.
-/

/-- A path, represented by its `parts` tuple as in `pathlib`:
absolute paths start with the part "/". -/
abbrev Seg := List String

/-- A Python value stored in a metadata dictionary: a string, an int,
a `pathlib.Path`, or `None`. -/
inductive MValue where
  | vStr (s : String)
  | vNat (n : Nat)
  | vPath (p : Seg)
  | vNone
deriving DecidableEq, Repr

/-- A metadata record: an insertion-ordered dict from field name to value. -/
abbrev Meta := List (String × MValue)

/-- The TrackInfoTree: album key → disc key → track number → record.
Album and disc keys are Python values (`None`, a string, or an int). -/
abbrev TTree := List (MValue × List (MValue × List (Nat × Meta)))

/-! ### Association-list (dict) primitives -/

/-- Dict lookup. -/
def lookupA [DecidableEq α] : List (α × β) → α → Option β
  | [], _ => none
  | e :: t, k => if e.1 = k then some e.2 else lookupA t k

/-- Dict update-or-insert: if `k` is present its entry is rewritten in
place by `f`, otherwise `(k, f d)` is appended (Python dict insertion
order). -/
def upsertA [DecidableEq α] (l : List (α × β)) (k : α) (d : β) (f : β → β) :
    List (α × β) :=
  match l with
  | [] => [(k, f d)]
  | e :: t => if e.1 = k then (e.1, f e.2) :: t else e :: upsertA t k d f

/-- Dict assignment `l[k] = v`. -/
def setA [DecidableEq α] (l : List (α × β)) (k : α) (v : β) : List (α × β) :=
  upsertA l k v (fun _ => v)

/-- Dict deletion `del l[k]`. -/
def eraseA [DecidableEq α] : List (α × β) → α → List (α × β)
  | [], _ => []
  | e :: t, k => if e.1 = k then eraseA t k else e :: eraseA t k

/-! ### String utilities mirroring the Python ones used by the program

These are written over `List Char` (rather than through the `String.Pos`
based core functions) so that every definition reduces inside the
kernel. -/

/-- `str.upper()` (the keys the parser upper-cases are ASCII letters). -/
def upperStr (s : String) : String := String.mk (s.toList.map Char.toUpper)

/-- `str.lower()`. -/
def lowerStr (s : String) : String := String.mk (s.toList.map Char.toLower)

/-- `str.rstrip()`: drop trailing whitespace. -/
def pyRstrip (s : String) : String :=
  String.mk ((s.toList.reverse.dropWhile Char.isWhitespace).reverse)

/-- `str.strip()`: drop leading and trailing whitespace. -/
def pyStrip (s : String) : String :=
  String.mk
    (((s.toList.dropWhile Char.isWhitespace).reverse.dropWhile
      Char.isWhitespace).reverse)

/-- Whether `s` ends with `suf`. -/
def endsWithL (s suf : List Char) : Bool :=
  decide (s.reverse.take suf.length = suf.reverse)

/-- Split on the character "/" (like `str.split('/')`, keeping empty
chunks). -/
def splitSlashAux : List Char → List Char → List String
  | [], acc => [String.mk acc.reverse]
  | c :: rest, acc =>
      if c = '/' then String.mk acc.reverse :: splitSlashAux rest []
      else splitSlashAux rest (c :: acc)

/-- All "/"-separated chunks of a string. -/
def splitSlash (cs : List Char) : List String := splitSlashAux cs []

/-- `str.isdigit` restricted to ASCII digits (the only digits the
program's regexes can feed it). -/
def pyIsDigit (s : String) : Bool :=
  s ≠ "" && s.toList.all Char.isDigit

/-- Integer value of a decimal digit string (`int(s)`). -/
def toNatD (s : String) : Nat :=
  s.toList.foldl (fun a c => a * 10 + (c.toNat - 48)) 0

/-- `str(n).zfill(w)`-style zero padding of an already rendered string. -/
def zfillStr (s : String) (w : Nat) : String :=
  if s.length < w then String.mk (List.replicate (w - s.length) '0') ++ s else s

/-- `f"{n:0{w}d}"` / `str(n).zfill(w)` for a natural number. -/
def padNum (n w : Nat) : String := zfillStr (toString n) w

/-- Python truthiness of a metadata value (`if album:` …):
`None` is falsy, `""` is falsy, `0` is falsy, `Path` objects are truthy. -/
def pyTruthy : MValue → Bool
  | .vStr s => s ≠ ""
  | .vNat n => n ≠ 0
  | .vPath _ => true
  | .vNone => false

/-- Python `str()` of a stored metadata value.  An absolute path prints
its "/" root part fused with the first component. -/
def pyStr : MValue → String
  | .vStr s => s
  | .vNat n => toString n
  | .vPath p =>
      match p with
      | "/" :: rest => "/" ++ String.intercalate "/" rest
      | _ => String.intercalate "/" p
  | .vNone => "None"

/-! ### Path representation helpers -/

/-- `Path(s)` from a string: split on "/", drop empty components, record
absoluteness as a leading "/" part (as `pathlib` does in `.parts`). -/
def strToPath (s : String) : Seg :=
  let comps := (splitSlash s.toList).filter (fun c => c ≠ "" && c ≠ ".")
  match s.toList with
  | '/' :: _ => "/" :: comps
  | _ => comps

/-- Whether a path is absolute. -/
def isAbsP (p : Seg) : Bool := p.headI = "/"

/-- `Path.__truediv__`: joining with an absolute right operand yields the
right operand. -/
def joinP (a b : Seg) : Seg := if isAbsP b then b else a ++ b

/-- Last component of a path (`path.parts[-1]`). -/
def lastPart (p : Seg) : String := p.getLastD ""

/-- `Path.suffix` of a file name: `name[i:]` where `i` is the index of the
last dot, provided `0 < i < len(name) - 1`, else the empty string
(pathlib's rule: a leading or trailing dot yields no suffix). -/
def extOf (name : String) : String :=
  let cs := name.toList
  match cs.reverse.findIdx? (fun c => c = '.') with
  | none => ""
  | some j =>
    let i := cs.length - 1 - j
    if 0 < i ∧ i < cs.length - 1 then String.mk (cs.drop i) else ""

/-- `path.suffix` (extension of the last component). -/
def suffixP (p : Seg) : String := extOf (lastPart p)

/-! ### Manifest line grammar

`TRACKINFO_RE = ([a-zA-Z]+)(?:\[([0-9]+)\])?=(.*)` with `fullmatch`.
Because the key letters cannot overlap `[` or `=`, maximal munch on the
letters is exact, and the optional index group either matches a complete
`[digits]` bracket or is empty (in which case `=` must follow at once). -/

/-- The standard keys of the trackinfo format (`TRACKINFO_STANDARD_KEYS`).
Note that `TRACKNUMBER` is *not* among them. -/
def TRACKINFO_STANDARD_KEYS : List String :=
  ["INPUT", "TITLE", "ARTIST", "LYRICIST", "COMPOSER", "ARRANGER", "ALBUM",
   "DISCNUMBER", "GENRE", "DATE", "LABEL", "COMMENT", "COVER"]

/-- Archive extensions recognized by the program (`ARCHIVE_EXTS`). -/
def ARCHIVE_EXTS : List String := [".zip", ".rar", ".7z"]

/-- Directory name used for tracks with no album (`UNKNOWN_ALBUM_NAME`). -/
def UNKNOWN_ALBUM_NAME : String := "UnknownAlbum"

/-- `TRACKINFO_RE.fullmatch(line)`: returns `(key, index digits, value)`
on a match (key as written, index as its raw digit string). -/
def parseLineRE (s : String) : Option (String × Option String × String) :=
  let cs := s.toList
  let letters := cs.takeWhile Char.isAlpha
  if letters.isEmpty then none
  else
    match cs.drop letters.length with
    | '=' :: v => some (String.mk letters, none, String.mk v)
    | '[' :: r =>
        let ds := r.takeWhile Char.isDigit
        if ds.isEmpty then none
        else
          match r.drop ds.length with
          | ']' :: '=' :: v => some (String.mk letters, some (String.mk ds), String.mk v)
          | _ => none
    | _ => none

/-- Parser state: the tree built so far and the running global scope
(`track_meta` and `global_meta` in `parse_trackinfo_meta`). -/
structure St where
  track_meta : TTree
  global_meta : Meta
deriving Repr

/-- The initial parser state: `{'ALBUM': None, 'DISCNUMBER': None}`. -/
def initSt : St :=
  { track_meta := [], global_meta := [("ALBUM", .vNone), ("DISCNUMBER", .vNone)] }

/-- Environment of `parse_trackinfo_meta`: the directory containing the
trackinfo file (`path.parent`), the `Path.resolve` oracle, and the input
map produced by `resolve_trackinfo_inputs`. -/
structure ParseEnv where
  tiParent : Seg
  resolvePath : Seg → Seg
  inputMap : List (Seg × Seg)

/-- Nested lookup `track_meta[album][disc][num]`. -/
def treeGet (t : TTree) (a d : MValue) (n : Nat) : Option Meta :=
  (lookupA t a).bind fun ds => (lookupA ds d).bind fun ts => lookupA ts n

/-- Nested `setdefault`-style write: inserts the album/disc levels if
absent (appending, as Python `dict.setdefault` does) and stores `r` at
the track slot. -/
def treeSet (t : TTree) (a d : MValue) (n : Nat) (r : Meta) : TTree :=
  upsertA t a [] fun ds =>
    upsertA ds d [] fun ts =>
      upsertA ts n r fun _ => r

/-- Dict lookup that raises `KeyError` when the key is absent
(`global_meta['ALBUM']` etc.). -/
def getKeyErr (m : Meta) (k : String) : Except String MValue :=
  match lookupA m k with
  | some v => .ok v
  | none => .error ("KeyError: " ++ k)

/-- The "Dictionary location" selection of a track-scoped line: computes
the `(album, disc)` keys the track is filed under.  `key` is already
upper-cased and `value` stripped. -/
def selectLoc (st : St) (key value : String) : Except String (MValue × MValue) :=
  match key with
  | "ALBUM" =>
      match getKeyErr st.global_meta "DISCNUMBER" with
      | .error e => .error e
      | .ok d => .ok (.vStr value, d)
  | "DISCNUMBER" =>
      match getKeyErr st.global_meta "ALBUM" with
      | .error e => .error e
      | .ok a =>
          if pyIsDigit value then
            .ok (a, .vNat (toNatD value))
          else
            .error ("DISCNUMBER (\u0027" ++ value ++ "\u0027) must be an integer")
  | _ =>
      match getKeyErr st.global_meta "ALBUM" with
      | .error e => .error e
      | .ok a =>
          match getKeyErr st.global_meta "DISCNUMBER" with
          | .error e => .error e
          | .ok d => .ok (a, d)

/-- The "Set key-value" section of `parse_trackinfo_meta` applied to the
destination record `dst` (either the global scope or a track record):
empty values delete an existing entry, `INPUT` is resolved through the
input map (`KeyError` aborts), `COVER` through its three-way rule,
`DISCNUMBER` is validated as digits, and any other key is stored as a
string. -/
def applyKV (env : ParseEnv) (key value : String) (dst : Meta) :
    Except String Meta :=
  if value = "" ∧ (lookupA dst key).isSome then
    .ok (eraseA dst key)
  else
    match key with
    | "INPUT" =>
        match lookupA env.inputMap
            (env.resolvePath (joinP env.tiParent (strToPath value))) with
        | some p => .ok (setA dst "INPUT" (.vPath p))
        | none => .error ("KeyError: unresolved INPUT " ++ value)
    | "COVER" =>
        if isAbsP (strToPath value) then
          .ok (setA dst "COVER" (.vPath (strToPath value)))
        else
          match lookupA dst "INPUT" with
          | some (.vPath ip) =>
              .ok (setA dst "COVER"
                (.vPath (env.resolvePath (joinP ip (strToPath value)))))
          | some _ => .error "TypeError: INPUT is not a path"
          | none =>
              .ok (setA dst "COVER"
                (.vPath (env.resolvePath (joinP env.tiParent (strToPath value)))))
    | "DISCNUMBER" =>
        if pyIsDigit value then .ok (setA dst "DISCNUMBER" (.vNat (toNatD value)))
        else .error ("DISCNUMBER (\u0027" ++ value ++ "\u0027) must be an integer")
    | _ => .ok (setA dst key (.vStr value))

/-- Processing of one manifest line by `parse_trackinfo_meta`: skip blank
lines, reject non-matching ones, select the destination record (creating
a track record from a snapshot of the global scope plus its
`TRACKNUMBER` when absent) and apply the key-value action to it. -/
def processLine (env : ParseEnv) (st : St) (line : String) : Except String St :=
  if pyRstrip line = "" then .ok st
  else
    match parseLineRE (pyRstrip line) with
    | none =>
        .error ("\u0027" ++ pyRstrip line ++
          "\u0027 is not a valid trackinfo line")
    | some (k, idx, v) =>
        match idx with
        | some ds =>
            match selectLoc st (upperStr k) (pyStrip v) with
            | .error e => .error e
            | .ok ad =>
                match applyKV env (upperStr k) (pyStrip v)
                    ((treeGet st.track_meta ad.1 ad.2 (toNatD ds)).getD
                      (setA st.global_meta "TRACKNUMBER" (.vNat (toNatD ds)))) with
                | .error e => .error e
                | .ok dst' =>
                    .ok { st with
                      track_meta := treeSet st.track_meta ad.1 ad.2 (toNatD ds) dst' }
        | none =>
            match applyKV env (upperStr k) (pyStrip v) st.global_meta with
            | .error e => .error e
            | .ok g' => .ok { st with global_meta := g' }

/-- Folding `processLine` over the manifest's lines. -/
def processLines (env : ParseEnv) (st : St) : List String → Except String St
  | [] => .ok st
  | l :: ls =>
      match processLine env st l with
      | .error e => .error e
      | .ok st' => processLines env st' ls

/-- `parse_trackinfo_meta`: parse all lines and return the track tree. -/
def parseTrackinfoMeta (env : ParseEnv) (lines : List String) :
    Except String TTree :=
  (processLines env initSt lines).map St.track_meta

/-! ### Padding calculator (`calc_padding`)

`math.floor(math.log10(m)) + 1` is the digit count of `m` for `m ≥ 1`
(embedded exactly as `Nat.log 10 m + 1`; the program computes it through
floating point, which agrees on every value a disc or track number can
realistically take).  `math.log10(0)` raises `ValueError: math domain
error`, embedded as the error case. -/

/-- `math.floor(math.log10(m)) + 1`, failing on `m = 0` as `math.log10`
does. -/
def log10F : Nat → Nat → Nat
  | 0, _ => 0
  | fuel + 1, m => if m < 10 then 0 else log10F fuel (m / 10) + 1

def digitCount (m : Nat) : Except String Nat :=
  if m = 0 then .error "math domain error" else .ok (log10F m m + 1)

/-- `max` of a list of ints; raises on an empty sequence as Python does. -/
def pyMaxNat (l : List Nat) : Except String Nat :=
  match l with
  | [] => .error "max() arg is an empty sequence"
  | x :: xs => .ok (xs.foldl Nat.max x)

/-- The `[v for v in discs.keys() if v is not None]` filter; every
non-`None` disc key a parse can produce is an int. -/
def discKeysNoNone (discs : List (MValue × List (Nat × Meta))) : List Nat :=
  discs.filterMap fun e =>
    match e.1 with
    | .vNat m => some m
    | _ => none

/-- `calc_padding`: per-album disc width and per-(album, disc) track
width. -/
def calcPadding (info : TTree) :
    Except String (List (MValue × Nat) × List (MValue × List (MValue × Nat))) :=
  let rec goTracks (discs : List (MValue × List (Nat × Meta))) :
      Except String (List (MValue × Nat)) :=
    match discs with
    | [] => .ok []
    | (d, tracks) :: rest => do
        let m ← pyMaxNat (tracks.map Prod.fst)
        let w ← digitCount m
        let r ← goTracks rest
        .ok ((d, w) :: r)
  let rec goAlbums (albums : TTree) :
      Except String (List (MValue × Nat) × List (MValue × List (MValue × Nat))) :=
    match albums with
    | [] => .ok ([], [])
    | (a, discs) :: rest => do
        let dw ←
          match discKeysNoNone discs with
          | [] => .ok 0
          | x :: xs => digitCount (List.foldl Nat.max x xs)
        let tw ← goTracks discs
        let (dr, tr) ← goAlbums rest
        .ok ((a, dw) :: dr, (a, tw) :: tr)
  goAlbums info

/-! ### Track identification string (`track_id_to_string`) -/

/-- `track_id_to_string(album, disc, num, disc_padding=0, track_padding=0)`.
`if album:` / `if disc:` are Python truthiness tests, so `None`, `""` and
`0` all suppress their part.  Disc keys of a parsed tree are `None` or an
int; a truthy non-int disc would make Python's `format` raise, which the
embedding renders as a placeholder string (unreachable from parser
output). -/
def trackIdToString (album disc : MValue) (num discPadding trackPadding : Nat) :
    String :=
  let albumStr := if pyTruthy album then "\"" ++ pyStr album ++ "\":" else ""
  let discStr :=
    if pyTruthy disc then
      match disc with
      | .vNat m => padNum m discPadding ++ "."
      | _ => "<format error>"
    else ""
  albumStr ++ "#" ++ discStr ++ padNum num trackPadding

/-! ### Track mapper (`map_tracks`)

`TRACK_INPUT_RE = .*?([0-9]+).*\.flac` with `fullmatch` and `re.I`:
a file name matches iff it ends with ".flac" (case-insensitively) and
contains a digit; the captured group is the maximal digit run starting at
the first digit (lazy `.*?` stops at the first digit, `[0-9]+` is greedy,
and the trailing `.*\.flac` can always consume the remainder because the
name ends with the extension, which itself contains no digit). -/

/-- The first maximal digit run of a list of characters, as a number. -/
def firstDigitRun : List Char → Option Nat
  | [] => none
  | c :: cs =>
      if c.isDigit then
        some (toNatD (String.mk (c :: cs.takeWhile Char.isDigit)))
      else firstDigitRun cs

/-- `TRACK_INPUT_RE.fullmatch(name)` followed by `int(m.group(1))`. -/
def parseTrackNum (name : String) : Option Nat :=
  if endsWithL (lowerStr name).toList ".flac".toList then
    firstDigitRun name.toList
  else none

/-- The inner `for f in tags['INPUT'].iterdir(): … break / else: raise`
loop: first directory entry whose embedded number equals `num`. -/
def findTrackFile (num : Nat) : List String → Option String
  | [] => none
  | f :: fs =>
      match parseTrackNum f with
      | some m => if m = num then some f else findTrackFile num fs
      | none => findTrackFile num fs

/-- The per-disc loop of `map_tracks`, over a directory-listing oracle
`dirList` standing for `Path.iterdir` (entry names in enumeration
order): `error` on the first track with no matching file. -/
def mapTracksTracks (dirList : Seg → List String) (album disc : MValue) :
    List (Nat × Meta) → Except String (List (Nat × String))
  | [] => .ok []
  | (num, tags) :: rest =>
      match lookupA tags "INPUT" with
      | some (.vPath ip) =>
          (match findTrackFile num (dirList ip) with
          | some f =>
              match mapTracksTracks dirList album disc rest with
              | .error e => .error e
              | .ok r => .ok ((num, f) :: r)
          | none =>
              .error ("Could not find file for track " ++
                trackIdToString album disc num 0 0))
      | some _ => .error "TypeError: INPUT is not a path"
      | none => .error "KeyError: INPUT"

/-- The per-album loop of `map_tracks`. -/
def mapTracksDiscs (dirList : Seg → List String) (album : MValue) :
    List (MValue × List (Nat × Meta)) →
      Except String (List (MValue × List (Nat × String)))
  | [] => .ok []
  | (d, tracks) :: rest =>
      match mapTracksTracks dirList album d tracks with
      | .error e => .error e
      | .ok ts =>
          match mapTracksDiscs dirList album rest with
          | .error e => .error e
          | .ok r => .ok ((d, ts) :: r)

/-- `map_tracks` over all albums. -/
def mapTracks (dirList : Seg → List String) :
    TTree → Except String (List (MValue × List (MValue × List (Nat × String))))
  | [] => .ok []
  | (a, discs) :: rest =>
      match mapTracksDiscs dirList a discs with
      | .error e => .error e
      | .ok ds =>
          match mapTracks dirList rest with
          | .error e => .error e
          | .ok r => .ok ((a, ds) :: r)

/-! ### Cover resolver (`map_covers`)

External effects are two oracles: `extractOk c` is the exit status of
`metaflac --export-picture-to=- c`, and `tmpName c` is the
`NamedTemporaryFile` path created for `c` inside the cover scratch
directory.  The function returns the list of reported error messages
together with the cover map. -/

/-- Append `x` to `l` if not already present (`set.add` over an
insertion-ordered representation). -/
def addSet [DecidableEq α] (l : List α) (x : α) : List α :=
  if x ∈ l then l else l ++ [x]

/-- First pass of `map_covers`: collect identity mappings for non-flac
covers and the deduplicated set of flac covers to extract. -/
def coverScan (info : TTree) : List (Seg × Seg) × List Seg :=
  info.foldl (fun acc ae =>
    ae.2.foldl (fun acc de =>
      de.2.foldl (fun (ret, ext) te =>
        match lookupA te.2 "COVER" with
        | some (MValue.vPath c) =>
            if lowerStr (suffixP c) = ".flac" then (ret, addSet ext c)
            else (setA ret c c, ext)
        | _ => (ret, ext)) acc) acc) ([], [])

/-- Second pass of `map_covers`: extraction of each flac cover.  A failed
extraction reports an error but the mapping to the temporary file is
recorded unconditionally. -/
def coverExtract (extractOk : Seg → Bool) (tmpName : Seg → Seg)
    (covers : List Seg) (st : List String × List (Seg × Seg)) :
    List String × List (Seg × Seg) :=
  match covers with
  | [] => st
  | c :: rest =>
      let errs :=
        if extractOk c then st.1
        else st.1 ++ ["ERROR: Could not extract cover art from " ++
          pyStr (.vPath c) ++ "!"]
      coverExtract extractOk tmpName rest (errs, setA st.2 c (tmpName c))

/-- `map_covers`: returns `(reported errors, cover map)`. -/
def mapCovers (extractOk : Seg → Bool) (tmpName : Seg → Seg) (info : TTree) :
    List String × List (Seg × Seg) :=
  let (ret, ext) := coverScan info
  coverExtract extractOk tmpName ext ([], ret)

/-! ### Filename sanitizer (`truncate_filename`)

Byte budgets are UTF-8 lengths (the non-Windows branch).  Python slices
the encoded base to the budget and then drops trailing bytes until the
slice decodes, which lands on the longest character-boundary prefix that
fits the byte budget; `ValueError` is raised exactly when that prefix is
empty while truncation was required. -/

/-- Longest prefix of `cs` whose UTF-8 encoding fits in `budget` bytes. -/
def fitChars (cs : List Char) (budget : Int) : List Char :=
  match cs with
  | [] => []
  | c :: rest =>
      if (c.utf8Size : Int) ≤ budget then c :: fitChars rest (budget - c.utf8Size)
      else []

/-- UTF-8 byte length of a list of characters. -/
def utf8Len (cs : List Char) : Int :=
  cs.foldl (fun a c => a + (c.utf8Size : Int)) 0

/-- `truncate_filename(filename, max_bytes=255)` with UTF-8 encoding.
Returns the resulting path (`Path(filename)` unchanged when it fits,
`Path(truncated_base + extension)` otherwise). -/
def truncateFilename (filename : String) (maxBytes : Int) :
    Except String Seg :=
  let name := lastPart (strToPath filename)
  let extension := extOf name
  let base := String.mk ((name.toList).take (name.length - extension.length))
  let maxBaseBytes := maxBytes - utf8Len extension.toList
  if utf8Len base.toList ≤ maxBaseBytes then .ok (strToPath filename)
  else
    match fitChars base.toList maxBaseBytes with
    | [] => .error ("\u0027" ++ filename ++ "\u0027 could not be truncated")
    | p => .ok (strToPath (String.mk p ++ extension))

/-! ### Output path generator (`gen_output_path`) -/

/-- `str.replace('/', '_')`. -/
def slashToUnderscore (s : String) : String :=
  String.mk (s.toList.map fun c => if c = '/' then '_' else c)

/-- `gen_output_path(tags, out_dir, disc_padding, track_padding)`.
`tags['ALBUM']`, `tags['DISCNUMBER']` and `tags['TRACKNUMBER']` are read
unconditionally (`KeyError` when absent); `.replace` on a non-string
album and `+` on non-string title/artist would raise in Python and are
rendered as `TypeError`s. -/
def genOutputPath (tags : Meta) (outDir : Seg)
    (discPadding trackPadding : Nat) : Except String Seg :=
  match lookupA tags "ALBUM" with
  | none => .error "KeyError: ALBUM"
  | some albumV =>
      let albumDirE : Except String String :=
        match albumV with
        | .vNone => .ok UNKNOWN_ALBUM_NAME
        | .vStr s => .ok (slashToUnderscore s)
        | _ => .error "TypeError: ALBUM"
      match albumDirE with
      | .error e => .error e
      | .ok albumDir =>
          match lookupA tags "DISCNUMBER" with
          | none => .error "KeyError: DISCNUMBER"
          | some discV =>
              let discPart :=
                match discV with
                | .vNone => ""
                | v => zfillStr (pyStr v) discPadding ++ "."
              match lookupA tags "TRACKNUMBER" with
              | none => .error "KeyError: TRACKNUMBER"
              | some tnV =>
                  let f0 := discPart ++ zfillStr (pyStr tnV) trackPadding
                  let f1E : Except String String :=
                    match lookupA tags "TITLE", lookupA tags "ARTIST" with
                    | some (.vStr t), some (.vStr a) =>
                        .ok (f0 ++ ". " ++ a ++ " - " ++ t)
                    | some (.vStr t), none => .ok (f0 ++ ". " ++ t)
                    | none, some (.vStr a) => .ok (f0 ++ ". " ++ a)
                    | none, none => .ok f0
                    | _, _ => .error "TypeError: TITLE/ARTIST"
                  match f1E with
                  | .error e => .error e
                  | .ok f1 =>
                      match truncateFilename (slashToUnderscore f1 ++ ".flac") 255 with
                      | .error e => .error e
                      | .ok f2 =>
                          .ok (joinP (joinP outDir (strToPath albumDir)) f2)

/-! ### Archive resolver (`expand_archives_in_tree`)

The filesystem and the extraction processes are an oracle `FS`:
`isFile`/`isDir` answer `Path.is_file`/`Path.is_dir`, `extractRoot p`
names the fresh temporary container directory `expand_archive` creates
for archive `p` (absorbing `tmp_dir` and `tempfile.mkdtemp`), and
`entries p` lists `p.iterdir()` names in enumeration order.  Successful
extraction is assumed (a failing extractor raises and aborts, which no
claim about this function exercises). -/

structure FS where
  isFile : Seg → Bool
  isDir : Seg → Bool
  extractRoot : Seg → Seg
  entries : Seg → List String

/-- Whether `stub` is an archive file:
`stub.is_file() and stub.suffix.lower() in ARCHIVE_EXTS`. -/
def isArchiveAt (fs : FS) (stub : Seg) : Bool :=
  fs.isFile stub && lowerStr (suffixP stub) ∈ ARCHIVE_EXTS

/-- Group `paths` by first component: the `nodes` dict of
`expand_archives_in_tree` (`{head: set of tails}`, insertion ordered,
tails deduplicated).  An empty path would raise `IndexError` in Python
and is ignored here (unreachable: declared inputs are non-empty). -/
def groupHeads (paths : List Seg) : List (String × List Seg) :=
  paths.foldl (fun acc p =>
    match p with
    | [] => acc
    | h :: t => upsertA acc h [] (fun ts => addSet ts t)) []

/-- The `archive_path`/`archive_files` logic choosing the effective
directory for one archive stub. -/
def archiveEffective (fs : FS) (stub : Seg) : Seg :=
  let root := fs.extractRoot stub
  match fs.entries root with
  | [e] => if fs.isDir (root ++ [e]) then root ++ [e] else root
  | _ => root

/-- `expand_archives_in_tree(paths, tmp_dir, parent)`, fuelled (the
Python recursion consumes one path segment per level, so any fuel of at
least the longest path length is exact).  Returns the computed mapping
together with the list of archive stubs that were extracted (the
extraction side effects, in order). -/
def expandAux (fs : FS) : Nat → List Seg → Seg → List (Seg × Seg) × List Seg
  | 0, _, _ => ([], [])
  | fuel + 1, paths, parent =>
      let nodes := (groupHeads paths).map fun ht =>
        if isArchiveAt fs (parent ++ [ht.1]) then
          (parent ++ [ht.1], archiveEffective fs (parent ++ [ht.1]), ht.2,
            [parent ++ [ht.1]])
        else
          (parent ++ [ht.1], parent ++ [ht.1], ht.2, ([] : List Seg))
      nodes.foldl
        (fun racc nd =>
          if (nd.2.2.1.filter (fun t => t ≠ [])).isEmpty then
            (racc.1 ++
              (if [] ∈ nd.2.2.1 then [([lastPart nd.1], nd.2.1)] else []),
              racc.2)
          else
            (racc.1 ++
              (if [] ∈ nd.2.2.1 then [([lastPart nd.1], nd.2.1)] else []) ++
              (expandAux fs fuel (nd.2.2.1.filter (fun t => t ≠ []))
                  nd.2.1).1.map (fun bm => (lastPart nd.1 :: bm.1, bm.2)),
              racc.2 ++ (expandAux fs fuel (nd.2.2.1.filter (fun t => t ≠ []))
                nd.2.1).2))
        ([], nodes.foldl (fun a nd => a ++ nd.2.2.2) [])

/-- Total length of all paths, an upper bound for the recursion depth. -/
def sumLen (paths : List Seg) : Nat := paths.foldl (fun a p => a + p.length) 0

/-- `expand_archives_in_tree` with its default `parent=Path()` handled by
the caller: mapping plus extraction actions. -/
def expandArchivesInTree (fs : FS) (paths : List Seg) (parent : Seg) :
    List (Seg × Seg) × List Seg :=
  expandAux fs (sumLen paths + 1) paths parent

/-! ### Input resolution (`resolve_trackinfo_inputs`) and `main` ordering -/

/-- `INPUT_TRACKINFO_RE = INPUT(?:\[[0-9]+\])?=(.*)` with `re.I` and
`fullmatch`: returns the raw (unstripped) value. -/
def parseInputLine (s : String) : Option String :=
  let cs := s.toList
  match cs with
  | i :: n :: p :: u :: t :: rest =>
      if lowerStr (String.mk [i, n, p, u, t]) = "input" then
        match rest with
        | '=' :: v => some (String.mk v)
        | '[' :: r =>
            let ds := r.takeWhile Char.isDigit
            if ds.isEmpty then none
            else
              match r.drop ds.length with
              | ']' :: '=' :: v => some (String.mk v)
              | _ => none
        | _ => none
      else none
  | _ => none

/-- The input-collection loop of `resolve_trackinfo_inputs`: the
deduplicated set of resolved input paths, in first-seen order. -/
def collectInputs (tiParent : Seg) (resolvePath : Seg → Seg)
    (lines : List String) : List Seg :=
  lines.foldl (fun acc line =>
    match parseInputLine (pyRstrip line) with
    | some v => addSet acc (resolvePath (joinP tiParent (strToPath v)))
    | none => acc) []

/-- `resolve_trackinfo_inputs(path, tmp_dir)`: collect inputs, then
expand archives.  Returns the input map and the extraction actions. -/
def resolveTrackinfoInputs (tiParent : Seg) (resolvePath : Seg → Seg)
    (fs : FS) (lines : List String) : List (Seg × Seg) × List Seg :=
  expandArchivesInTree fs (collectInputs tiParent resolvePath lines) []

/-- The sequential prefix of `main`: `resolve_trackinfo_inputs` runs
first (performing all archive extractions), then `parse_trackinfo_meta`
consumes the produced map.  Result: the extraction actions already
performed, paired with the parse outcome. -/
def mainSteps (tiParent : Seg) (resolvePath : Seg → Seg) (fs : FS)
    (lines : List String) : List Seg × Except String TTree :=
  let (inputMap, acts) := resolveTrackinfoInputs tiParent resolvePath fs lines
  (acts,
    parseTrackinfoMeta
      { tiParent := tiParent, resolvePath := resolvePath, inputMap := inputMap }
      lines)

/-! ## Claim theorems -/

/-- A concrete parse environment for counterexamples: trackinfo lives in
`/m`, `resolve` is the identity, no resolved inputs. -/
def envC : ParseEnv := { tiParent := ["/", "m"], resolvePath := id, inputMap := [] }

/-- The filesystem oracle of the C5 counterexample: `/m/a.zip` is an
archive file whose extraction container `/tmp/e1` comes back empty. -/
def c5fs : FS :=
  { isFile := fun p => p = ["/", "m", "a.zip"],
    isDir := fun _ => false,
    extractRoot := fun _ => ["/", "tmp", "e1"],
    entries := fun _ => [] }

/-- The C1 invariant: every leaf of the tree stores a `TRACKNUMBER`
equal to the track key it sits under. -/
def leafTN (t : TTree) : Prop :=
  ∀ a d n r, treeGet t a d n = some r →
    lookupA r "TRACKNUMBER" = some (MValue.vNat n)

/-- A concrete parser state for the C3 witness: one existing track
(no album, no disc, number 1) and the initial global scope. -/
def stW : St :=
  { track_meta :=
      [(MValue.vNone, [(MValue.vNone, [(1, [("TRACKNUMBER", MValue.vNat 1)])])])],
    global_meta := [("ALBUM", MValue.vNone), ("DISCNUMBER", MValue.vNone)] }

/-- The state produced by processing `ARTIST[2]=x` on `stW`. -/
def stW2 : St :=
  { track_meta :=
      [(MValue.vNone, [(MValue.vNone,
        [(1, [("TRACKNUMBER", MValue.vNat 1)]),
         (2, [("ALBUM", MValue.vNone), ("DISCNUMBER", MValue.vNone),
              ("TRACKNUMBER", MValue.vNat 2),
              ("ARTIST", MValue.vStr "x")])])])],
    global_meta := [("ALBUM", MValue.vNone), ("DISCNUMBER", MValue.vNone)] }

/-- A manifest line carrying a `DISCNUMBER` assignment (at either scope)
whose stripped value is non-empty and not a digit string. -/
def badDiscLine (l : String) : Prop :=
  ∃ k oi v, parseLineRE (pyRstrip l) = some (k, oi, v) ∧
    upperStr k = "DISCNUMBER" ∧ pyStrip v ≠ "" ∧
    pyIsDigit (pyStrip v) = false

/-- The state after processing `ALBUM=Y` on `stW` (global updated, tree
untouched). -/
def stW3 : St :=
  { track_meta := stW.track_meta,
    global_meta := [("ALBUM", MValue.vStr "Y"), ("DISCNUMBER", MValue.vNone)] }

/-- The state after processing `TITLE[1]=A` from the initial state. -/
def stC7 : St :=
  { track_meta :=
      [(MValue.vNone, [(MValue.vNone,
        [(1, [("ALBUM", MValue.vNone), ("DISCNUMBER", MValue.vNone),
              ("TRACKNUMBER", MValue.vNat 1),
              ("TITLE", MValue.vStr "A")])])])],
    global_meta := [("ALBUM", MValue.vNone), ("DISCNUMBER", MValue.vNone)] }

/-- The disc+track prefix of the claim formula: the zero-padded disc
number followed by "." only when a disc is present, then the zero-padded
track number. -/
def discTrack (disc : Option Nat) (discPadding num trackPadding : Nat) :
    String :=
  (match disc with
   | some m => zfillStr (toString m) discPadding ++ "."
   | none => "") ++
  zfillStr (toString num) trackPadding

/-- The filename formula as the claim words it: the disc/track prefix,
then ". ARTIST - TITLE" when both are present, else ". TITLE" or
". ARTIST" when exactly one is, else nothing. -/
def claimFilename (disc : Option Nat) (discPadding num trackPadding : Nat)
    (title artist : Option String) : String :=
  match title, artist with
  | some t, some ar =>
      discTrack disc discPadding num trackPadding ++ ". " ++ ar ++ " - " ++ t
  | some t, none => discTrack disc discPadding num trackPadding ++ ". " ++ t
  | none, some ar => discTrack disc discPadding num trackPadding ++ ". " ++ ar
  | none, none => discTrack disc discPadding num trackPadding

/-- The straight-line resolution of one declared path, as the claim
words it: an archive segment's effective root is the archive's sole
contained directory when the extraction result has exactly one entry and
that entry is a directory, and the extraction root itself otherwise
(`archiveEffective`); a non-archive segment maps to itself; a path with
no remaining segments maps directly to its effective directory, and
otherwise resolution recurses into the remaining segments rooted at the
effective directory. -/
def resolveSeq (fs : FS) (parent : Seg) : Seg → Seg
  | [] => parent
  | [h] =>
      if isArchiveAt fs (parent ++ [h]) then archiveEffective fs (parent ++ [h])
      else parent ++ [h]
  | h :: r :: rs =>
      resolveSeq fs
        (if isArchiveAt fs (parent ++ [h]) then
          archiveEffective fs (parent ++ [h])
        else parent ++ [h]) (r :: rs)

theorem lookupA_upsertA [DecidableEq α] (l : List (α × β)) (k k' : α) (d : β)
    (f : β → β) :
    lookupA (upsertA l k d f) k' =
      if k' = k then some (f ((lookupA l k).getD d)) else lookupA l k' := by
  induction l with
  | nil =>
      rcases eq_or_ne k' k with h | h
      · subst h; simp [upsertA, lookupA]
      · simp [upsertA, lookupA, h, h.symm]
  | cons e t ih =>
      simp only [upsertA]
      rcases eq_or_ne e.1 k with he | he
      · subst he
        rcases eq_or_ne k' e.1 with h | h
        · subst h; simp [lookupA]
        · simp [lookupA, h, h.symm]
      · rw [if_neg he]
        rcases eq_or_ne k' k with h | h
        · subst h
          have he' : e.1 ≠ k' := he
          simp [lookupA, he', ih]
        · simp [lookupA, ih, h]

theorem lookupA_setA [DecidableEq α] (l : List (α × β)) (k k' : α) (v : β) :
    lookupA (setA l k v) k' = if k' = k then some v else lookupA l k' := by
  simp [setA, lookupA_upsertA]

theorem lookupA_eraseA [DecidableEq α] (l : List (α × β)) (k k' : α) :
    lookupA (eraseA l k) k' = if k' = k then none else lookupA l k' := by
  induction l with
  | nil => rcases eq_or_ne k' k with h | h <;> simp [eraseA, lookupA, h]
  | cons e t ih =>
      simp only [eraseA]
      rcases eq_or_ne e.1 k with he | he
      · rw [if_pos he]
        subst he
        rcases eq_or_ne k' e.1 with h | h
        · subst h; simp [ih]
        · simp [lookupA, ih, h, h.symm]
      · rw [if_neg he]
        rcases eq_or_ne k' k with h | h
        · subst h
          have he' : e.1 ≠ k' := he
          simp [lookupA, he', ih]
        · simp [lookupA, ih, h]

theorem treeGet_treeSet (t : TTree) (a d : MValue) (n : Nat) (r : Meta)
    (a' d' : MValue) (n' : Nat) :
    treeGet (treeSet t a d n r) a' d' n' =
      if a' = a ∧ d' = d ∧ n' = n then some r else treeGet t a' d' n' := by
  unfold treeGet treeSet
  rw [lookupA_upsertA]
  rcases eq_or_ne a' a with ha | ha
  · subst ha
    rw [if_pos rfl, Option.some_bind, lookupA_upsertA]
    rcases eq_or_ne d' d with hd | hd
    · subst hd
      rw [if_pos rfl, Option.some_bind, lookupA_upsertA]
      rcases eq_or_ne n' n with hn | hn
      · subst hn
        rw [if_pos rfl, if_pos ⟨rfl, rfl, rfl⟩]
      · rw [if_neg hn, if_neg (fun h => hn h.2.2)]
        cases h1 : lookupA t a' with
        | none => simp [lookupA]
        | some ds =>
            cases h2 : lookupA ds d' with
            | none => simp [h2, lookupA]
            | some ts => simp [h2]
    · rw [if_neg hd, if_neg (fun h => hd h.2.1)]
      cases h1 : lookupA t a' with
      | none => simp [lookupA]
      | some ds => simp
  · rw [if_neg ha, if_neg (fun h => ha h.1)]

/-- The fuelled base-10 logarithm is the floor logarithm once the fuel
dominates the argument. -/
theorem log10F_eq_log (fuel m : Nat) (h : m ≤ fuel) :
    log10F fuel m = Nat.log 10 m := by
  induction fuel generalizing m with
  | zero =>
      have hm : m = 0 := Nat.le_zero.mp h
      subst hm
      simp [log10F]
  | succ fuel ih =>
      rw [log10F]
      rcases lt_or_ge m 10 with hlt | hge
      · rw [if_pos hlt, Nat.log_of_lt hlt]
      · rw [if_neg (not_lt_of_ge hge)]
        have hm1 : 1 ≤ m := le_trans (by norm_num) hge
        have hdiv : m / 10 < m := Nat.div_lt_self hm1 (by norm_num)
        have hfuel : m / 10 ≤ fuel :=
          Nat.le_of_lt_succ (lt_of_lt_of_le hdiv h)
        rw [ih (m / 10) hfuel]
        conv_rhs => rw [Nat.log, dif_pos ⟨hge, by norm_num⟩]

/-- For `m ≥ 1`, `digitCount` returns `⌊log10 m⌋ + 1`, the formula the
program computes through `math.floor(math.log10(m)) + 1`. -/
theorem digitCount_eq_log (m : Nat) (h : m ≠ 0) :
    digitCount m = .ok (Nat.log 10 m + 1) := by
  unfold digitCount
  rw [if_neg h, log10F_eq_log m m le_rfl]

/-- Claim C1 (counterexample).  The manifest consisting of the single
line `TRACKNUMBER[3]=7` is accepted without a fatal error (`TRACKNUMBER`
is not a standard key, which only warns), yet the leaf stored under
track key 3 has `TRACKNUMBER` equal to the *string* "7" — not the int 3
it is stored under — and carries no resolved `INPUT` at all.  This
refutes the claim that every leaf of an accepted manifest has a resolved
`INPUT` and a `TRACKNUMBER` equal to its key regardless of which
non-standard keys the manifest assigns at track scope. -/
theorem c1_tracknumber_counterexample :
    parseTrackinfoMeta envC ["TRACKNUMBER[3]=7"] =
      .ok [(MValue.vNone, [(MValue.vNone,
        [(3, [("ALBUM", MValue.vNone), ("DISCNUMBER", MValue.vNone),
              ("TRACKNUMBER", MValue.vStr "7")])])])] ∧
    lookupA [("ALBUM", MValue.vNone), ("DISCNUMBER", MValue.vNone),
        ("TRACKNUMBER", MValue.vStr "7")] "TRACKNUMBER" =
      some (MValue.vStr "7") ∧
    MValue.vStr "7" ≠ MValue.vNat 3 ∧
    lookupA [("ALBUM", MValue.vNone), ("DISCNUMBER", MValue.vNone),
        ("TRACKNUMBER", MValue.vStr "7")] "INPUT" = none :=
  ⟨rfl, rfl, by decide, rfl⟩

/-- Claim C2 (failing input).  `calc_padding` raises `math.log10`'s
`ValueError: math domain error` both when the maximum track number of a
disc is 0 and when the maximum non-absent disc key of an album is 0,
instead of returning the digit count 1 for 0 as the spec prescribes. -/
theorem c2_padding_fails_at_zero :
    calcPadding [(MValue.vNone, [(MValue.vNone,
        [(0, [("TRACKNUMBER", MValue.vNat 0)])])])] =
      .error "math domain error" ∧
    calcPadding [(MValue.vNone, [(MValue.vNat 0, [(1, [])])])] =
      .error "math domain error" :=
  ⟨rfl, rfl⟩

/-- Claim C3 (counterexample).  Processing the line `TITLE[1]=` (empty
`VALUE`) against an empty global scope performs an assignment: `TITLE`
is absent from the freshly created track record, so the deletion guard
falls through and the field *is* set to the empty string. -/
theorem c3_empty_assign_counterexample :
    parseTrackinfoMeta envC ["TITLE[1]="] =
      .ok [(MValue.vNone, [(MValue.vNone,
        [(1, [("ALBUM", MValue.vNone), ("DISCNUMBER", MValue.vNone),
              ("TRACKNUMBER", MValue.vNat 1), ("TITLE", MValue.vStr "")])])])] ∧
    lookupA [("ALBUM", MValue.vNone), ("DISCNUMBER", MValue.vNone),
        ("TRACKNUMBER", MValue.vNat 1), ("TITLE", MValue.vStr "")] "TITLE" =
      some (MValue.vStr "") :=
  ⟨rfl, rfl⟩

/-- Claim C4 (counterexample).  With one track whose `COVER` is the flac
file `/c/x.flac` and a failing extraction process, `map_covers` reports
the error but the returned cover map still *contains* an entry for that
cover path (pointing at the temporary file): there is no mapping miss,
so the claim that the map has no entry for the failed path is false. -/
theorem c4_no_mapping_miss_counterexample :
    (mapCovers (fun _ => false) (fun _ => ["/", "tmp", "covers", "t1"])
        [(MValue.vNone, [(MValue.vNone,
          [(1, [("COVER", MValue.vPath ["/", "c", "x.flac"])])])])]).2 =
      [(["/", "c", "x.flac"], ["/", "tmp", "covers", "t1"])] ∧
    lookupA (mapCovers (fun _ => false) (fun _ => ["/", "tmp", "covers", "t1"])
        [(MValue.vNone, [(MValue.vNone,
          [(1, [("COVER", MValue.vPath ["/", "c", "x.flac"])])])])]).2
        ["/", "c", "x.flac"] ≠ none ∧
    (mapCovers (fun _ => false) (fun _ => ["/", "tmp", "covers", "t1"])
        [(MValue.vNone, [(MValue.vNone,
          [(1, [("COVER", MValue.vPath ["/", "c", "x.flac"])])])])]).1 =
      ["ERROR: Could not extract cover art from /c/x.flac!"] :=
  ⟨rfl, by decide, rfl⟩

/-- Claim C5 (counterexample).  On the manifest `INPUT=a.zip`,
`DISCNUMBER=abc`, `main` first runs `resolve_trackinfo_inputs`, which
extracts the archive `/m/a.zip` (a non-empty action list), and only then
does `parse_trackinfo_meta` raise the fatal `DISCNUMBER` validation
error: the run does *not* abort before archive resolution of declared
`INPUT` paths. -/
theorem c5_resolution_first_counterexample :
    (mainSteps ["/", "m"] id c5fs ["INPUT=a.zip", "DISCNUMBER=abc"]).1 =
      [["/", "m", "a.zip"]] ∧
    (mainSteps ["/", "m"] id c5fs ["INPUT=a.zip", "DISCNUMBER=abc"]).2 =
      .error "DISCNUMBER (\u0027abc\u0027) must be an integer" :=
  ⟨rfl, rfl⟩

/-- Claim C6 (counterexample).  Album "A", disc 1, tracks 5 and 10, with
an input directory containing only `10.flac`: `map_tracks` fails on
track 5 with the message `Could not find file for track "A":#1.5`, while
the computed padding widths are 1 (disc) and 2 (track) — the claimed
zero-padded message `"A":#1.05` differs from the actual one, because
`map_tracks` calls `track_id_to_string` with its default padding 0. -/
theorem c6_unpadded_message_counterexample :
    mapTracks (fun _ => ["10.flac"])
        [(MValue.vStr "A", [(MValue.vNat 1,
          [(5, [("INPUT", MValue.vPath ["/", "d"])]),
           (10, [("INPUT", MValue.vPath ["/", "d"])])])])] =
      .error "Could not find file for track \"A\":#1.5" ∧
    calcPadding
        [(MValue.vStr "A", [(MValue.vNat 1,
          [(5, [("INPUT", MValue.vPath ["/", "d"])]),
           (10, [("INPUT", MValue.vPath ["/", "d"])])])])] =
      .ok ([(MValue.vStr "A", 1)], [(MValue.vStr "A", [(MValue.vNat 1, 2)])]) ∧
    "Could not find file for track \"A\":#1.5" ≠
      "Could not find file for track " ++
        trackIdToString (MValue.vStr "A") (MValue.vNat 1) 5 1 2 :=
  ⟨rfl, rfl, by decide⟩

/-- Claim C10.  The syntactically valid manifest `ALBUM[1]=` files its
track under the album key `""` (the empty string, a key distinct from
the absent-album key `None`), deletes the inherited `ALBUM` entry from
the track's record, and `gen_output_path` applied to that record fails
with a `KeyError`, since it reads `tags['ALBUM']` unconditionally. -/
theorem c10_empty_album_breaks_output :
    parseTrackinfoMeta envC ["ALBUM[1]="] =
      .ok [(MValue.vStr "", [(MValue.vNone,
        [(1, [("DISCNUMBER", MValue.vNone),
              ("TRACKNUMBER", MValue.vNat 1)])])])] ∧
    MValue.vStr "" ≠ MValue.vNone ∧
    lookupA [("DISCNUMBER", MValue.vNone), ("TRACKNUMBER", MValue.vNat 1)]
      "ALBUM" = none ∧
    genOutputPath
        [("DISCNUMBER", MValue.vNone), ("TRACKNUMBER", MValue.vNat 1)]
        ["/", "out"] 0 0 =
      .error "KeyError: ALBUM" :=
  ⟨rfl, by decide, rfl, rfl⟩

theorem applyKV_preserves_tracknumber (env : ParseEnv) (key value : String)
    (dst dst' : Meta) (h : applyKV env key value dst = .ok dst')
    (hk : key ≠ "TRACKNUMBER") :
    lookupA dst' "TRACKNUMBER" = lookupA dst "TRACKNUMBER" := by
  unfold applyKV at h
  split at h
  · cases h
    rw [lookupA_eraseA, if_neg (Ne.symm hk)]
  · split at h
    · split at h
      · cases h; rw [lookupA_setA, if_neg (by decide)]
      · exact Except.noConfusion h
    · split at h
      · cases h; rw [lookupA_setA, if_neg (by decide)]
      · split at h
        · cases h; rw [lookupA_setA, if_neg (by decide)]
        · exact Except.noConfusion h
        · cases h; rw [lookupA_setA, if_neg (by decide)]
    · split at h
      · cases h; rw [lookupA_setA, if_neg (by decide)]
      · exact Except.noConfusion h
    · cases h; rw [lookupA_setA, if_neg (Ne.symm hk)]

theorem snapshot_tracknumber (g : Meta) (tn : Nat) :
    lookupA (setA g "TRACKNUMBER" (MValue.vNat tn)) "TRACKNUMBER" =
      some (MValue.vNat tn) := by
  rw [lookupA_setA, if_pos rfl]

theorem processLine_leafTN (env : ParseEnv) (st : St) (line : String) (st' : St)
    (hkey : ∀ k ds v, parseLineRE (pyRstrip line) = some (k, some ds, v) →
      upperStr k ≠ "TRACKNUMBER")
    (h : processLine env st line = .ok st')
    (inv : leafTN st.track_meta) : leafTN st'.track_meta := by
  unfold processLine at h
  split at h
  · cases h; exact inv
  · split at h
    · exact Except.noConfusion h
    · rename_i k idx v heq
      split at h
      · rename_i ds
        have hk : upperStr k ≠ "TRACKNUMBER" := hkey k ds v heq
        split at h
        · exact Except.noConfusion h
        · rename_i ad hsel
          obtain ⟨a, d⟩ := ad
          split at h
          · exact Except.noConfusion h
          · rename_i dst' hap
            cases h
            intro a' d' n' r hr
            rw [treeGet_treeSet] at hr
            split at hr
            · rename_i hcond
              obtain ⟨rfl, rfl, rfl⟩ := hcond
              cases hr
              rw [applyKV_preserves_tracknumber env _ _ _ _ hap hk]
              cases hg : treeGet st.track_meta a' d' (toNatD ds) with
              | none => exact snapshot_tracknumber _ _
              | some r0 => exact inv a' d' (toNatD ds) r0 hg
            · exact inv a' d' n' r hr
      · split at h
        · exact Except.noConfusion h
        · rename_i g' hap
          cases h
          exact inv

theorem processLines_leafTN (env : ParseEnv) (lines : List String) (st st' : St)
    (hkey : ∀ l ∈ lines, ∀ k ds v,
      parseLineRE (pyRstrip l) = some (k, some ds, v) →
      upperStr k ≠ "TRACKNUMBER")
    (h : processLines env st lines = .ok st')
    (inv : leafTN st.track_meta) : leafTN st'.track_meta := by
  induction lines generalizing st with
  | nil =>
      unfold processLines at h
      cases h; exact inv
  | cons l ls ih =>
      unfold processLines at h
      split at h
      · exact Except.noConfusion h
      · rename_i st1 h1
        exact ih st1 (fun l' hl' => hkey l' (List.mem_cons_of_mem l hl')) h
          (processLine_leafTN env st l st1 (hkey l (List.mem_cons_self l ls)) h1 inv)

/-- Claim C1 (amended).  When no manifest line assigns the non-standard
key `TRACKNUMBER` at track scope, every leaf record of the tree returned
by `parse_trackinfo_meta` has a `TRACKNUMBER` field equal to the track
key it is stored under.  (An `INPUT` entry is not guaranteed: see the
counterexample, whose accepted leaf has none.) -/
theorem c1_tracknumber_invariant (env : ParseEnv) (lines : List String)
    (t : TTree)
    (hkey : ∀ l ∈ lines, ∀ k ds v,
      parseLineRE (pyRstrip l) = some (k, some ds, v) →
      upperStr k ≠ "TRACKNUMBER")
    (h : parseTrackinfoMeta env lines = .ok t) :
    ∀ a d n r, treeGet t a d n = some r →
      lookupA r "TRACKNUMBER" = some (MValue.vNat n) := by
  unfold parseTrackinfoMeta at h
  cases hp : processLines env initSt lines with
  | error e => rw [hp] at h; exact Except.noConfusion h
  | ok stF =>
      rw [hp] at h
      have ht : stF.track_meta = t := by
        simpa [Except.map] using h
      have : leafTN stF.track_meta :=
        processLines_leafTN env lines initSt stF hkey hp
          (by intro a d n r hr; simp [initSt, treeGet, lookupA] at hr)
      rw [ht] at this
      exact this

/-- Witness for C1 (amended): on the concrete manifest `TITLE[1]=A` the
single leaf, stored under track key 1, has `TRACKNUMBER = 1`. -/
theorem c1_tracknumber_invariant_witness :
    lookupA [("ALBUM", MValue.vNone), ("DISCNUMBER", MValue.vNone),
        ("TRACKNUMBER", MValue.vNat 1), ("TITLE", MValue.vStr "A")]
      "TRACKNUMBER" = some (MValue.vNat 1) := by
  refine c1_tracknumber_invariant envC ["TITLE[1]=A"]
    [(MValue.vNone, [(MValue.vNone,
      [(1, [("ALBUM", MValue.vNone), ("DISCNUMBER", MValue.vNone),
            ("TRACKNUMBER", MValue.vNat 1), ("TITLE", MValue.vStr "A")])])])]
    ?_ rfl MValue.vNone MValue.vNone 1 _ rfl
  intro l hl k ds v heq
  rcases List.mem_singleton.mp hl with rfl
  rw [show parseLineRE (pyRstrip "TITLE[1]=A") =
    some ("TITLE", some "1", "A") from rfl] at heq
  simp only [Option.some.injEq, Prod.mk.injEq] at heq
  obtain ⟨rfl, -, -⟩ := heq
  decide

/-- Claim C3 (amended).  For a manifest line with empty `VALUE`:
(1) if the named field is present in the targeted scope's record, the
line deletes it from that record;
(2) if the field is absent, the line proceeds as an ordinary assignment
with the empty value — a generic field (not `INPUT`/`COVER`/
`DISCNUMBER`) is stored as the empty string;
(3) a track-scoped line leaves the global scope's record and every other
track record unchanged (and this frame property holds whatever the
value). -/
theorem c3_empty_value_semantics :
    (∀ (env : ParseEnv) (key : String) (dst : Meta) (w : MValue),
      lookupA dst key = some w →
      applyKV env key "" dst = .ok (eraseA dst key)) ∧
    (∀ (env : ParseEnv) (key : String) (dst : Meta),
      lookupA dst key = none → key ≠ "INPUT" → key ≠ "COVER" →
      key ≠ "DISCNUMBER" →
      applyKV env key "" dst = .ok (setA dst key (.vStr ""))) ∧
    (∀ (env : ParseEnv) (st : St) (line : String) (k ds v : String) (st' : St),
      parseLineRE (pyRstrip line) = some (k, some ds, v) →
      processLine env st line = .ok st' →
      st'.global_meta = st.global_meta ∧
      ∀ a d, selectLoc st (upperStr k) (pyStrip v) = .ok (a, d) →
        ∀ a' d' n', ¬(a' = a ∧ d' = d ∧ n' = toNatD ds) →
          treeGet st'.track_meta a' d' n' = treeGet st.track_meta a' d' n') := by
  refine ⟨?_, ?_, ?_⟩
  · intro env key dst w hw
    unfold applyKV
    rw [if_pos ⟨rfl, by rw [hw]; rfl⟩]
  · intro env key dst hnone hIN hCV hDN
    unfold applyKV
    rw [if_neg (by simp [hnone])]
    split
    all_goals simp_all
  · intro env st line k ds v st' hre h
    unfold processLine at h
    split at h
    · rename_i hblank
      rw [show pyRstrip line = "" from hblank] at hre
      exact absurd hre (by rw [show parseLineRE "" = none from rfl]; exact
        fun hc => Option.noConfusion hc)
    · split at h
      · exact Except.noConfusion h
      · rename_i k0 idx0 v0 heq0
        rw [hre] at heq0
        simp only [Option.some.injEq, Prod.mk.injEq] at heq0
        obtain ⟨rfl, hidx, rfl⟩ := heq0
        split at h
        · rename_i ds0
          obtain rfl : ds = ds0 := Option.some.inj hidx
          split at h
          · exact Except.noConfusion h
          · rename_i ad hsel
            split at h
            · exact Except.noConfusion h
            · rename_i dst' hap
              cases h
              refine ⟨rfl, ?_⟩
              intro a d hsel' a' d' n' hne
              rw [hsel] at hsel'
              have had : ad = (a, d) := Except.ok.inj hsel'
              subst had
              rw [treeGet_treeSet, if_neg]
              exact fun hc => hne hc
        · exact Option.noConfusion hidx

/-- Witness for C3 (amended), instantiating all three parts: deleting a
present `TITLE` with an empty value, assigning an absent `GENRE` to the
empty string, and the frame property of the track-scoped line
`ARTIST[2]=x` on `stW`. -/
theorem c3_empty_value_semantics_witness :
    applyKV envC "TITLE" "" [("TITLE", MValue.vStr "x")] =
      .ok (eraseA [("TITLE", MValue.vStr "x")] "TITLE") ∧
    applyKV envC "GENRE" "" [] = .ok (setA [] "GENRE" (MValue.vStr "")) ∧
    stW2.global_meta = stW.global_meta ∧
    treeGet stW2.track_meta MValue.vNone MValue.vNone 1 =
      treeGet stW.track_meta MValue.vNone MValue.vNone 1 := by
  refine ⟨c3_empty_value_semantics.1 envC "TITLE" _ (MValue.vStr "x") rfl,
    c3_empty_value_semantics.2.1 envC "GENRE" [] rfl (by decide) (by decide)
      (by decide), ?_, ?_⟩
  · exact (c3_empty_value_semantics.2.2 envC stW "ARTIST[2]=x" "ARTIST" "2" "x"
      _ rfl rfl).1
  · exact (c3_empty_value_semantics.2.2 envC stW "ARTIST[2]=x" "ARTIST" "2" "x"
      _ rfl rfl).2 MValue.vNone MValue.vNone rfl MValue.vNone MValue.vNone 1
      (by decide)

theorem coverExtract_not_mem (eo : Seg → Bool) (tn : Seg → Seg) (l : List Seg)
    (st : List String × List (Seg × Seg)) (c : Seg) (hc : c ∉ l) :
    lookupA (coverExtract eo tn l st).2 c = lookupA st.2 c := by
  induction l generalizing st with
  | nil => rfl
  | cons x rest ih =>
      have hcx : c ≠ x := fun h => hc (h ▸ List.mem_cons_self x rest)
      have hcr : c ∉ rest := fun h => hc (List.mem_cons_of_mem x h)
      unfold coverExtract
      rw [ih _ hcr]
      simp only [lookupA_setA, if_neg hcx]

theorem coverExtract_mem (eo : Seg → Bool) (tn : Seg → Seg) (l : List Seg)
    (st : List String × List (Seg × Seg)) (c : Seg) (hc : c ∈ l) :
    lookupA (coverExtract eo tn l st).2 c = some (tn c) := by
  induction l generalizing st with
  | nil => exact absurd hc (List.not_mem_nil c)
  | cons x rest ih =>
      by_cases hr : c ∈ rest
      · unfold coverExtract
        exact ih _ hr
      · have hcx : c = x := by
          rcases List.mem_cons.mp hc with h | h
          · exact h
          · exact absurd h hr
        subst hcx
        unfold coverExtract
        rw [coverExtract_not_mem eo tn rest _ c hr]
        simp [lookupA_setA]

theorem coverExtract_errs_mono (eo : Seg → Bool) (tn : Seg → Seg)
    (l : List Seg) (st : List String × List (Seg × Seg)) (e : String)
    (he : e ∈ st.1) : e ∈ (coverExtract eo tn l st).1 := by
  induction l generalizing st with
  | nil => exact he
  | cons x rest ih =>
      unfold coverExtract
      apply ih
      by_cases hx : eo x = true
      · simpa [hx] using he
      · rw [Bool.not_eq_true] at hx
        simp only [hx, Bool.false_eq_true, if_false]
        exact List.mem_append_left _ he

theorem coverExtract_err_reported (eo : Seg → Bool) (tn : Seg → Seg)
    (l : List Seg) (st : List String × List (Seg × Seg)) (c : Seg)
    (hc : c ∈ l) (hfail : eo c = false) :
    ("ERROR: Could not extract cover art from " ++ pyStr (.vPath c) ++ "!") ∈
      (coverExtract eo tn l st).1 := by
  induction l generalizing st with
  | nil => exact absurd hc (List.not_mem_nil c)
  | cons x rest ih =>
      by_cases hcx : c = x
      · subst hcx
        unfold coverExtract
        apply coverExtract_errs_mono
        simp only [hfail, Bool.false_eq_true, if_false]
        exact List.mem_append_right _ (List.mem_singleton.mpr rfl)
      · have hr : c ∈ rest := by
          rcases List.mem_cons.mp hc with h | h
          · exact absurd h hcx
          · exact h
        unfold coverExtract
        exact ih _ hr

/-- Claim C4 (amended).  For every cover path `c` that the first pass of
`map_covers` collected for extraction (i.e. a declared `COVER` of some
track whose extension is `.flac`), if the external extraction process
fails on `c` then `map_covers` reports the non-fatal error for `c` and
the returned cover map still maps `c` to the temporary file created for
it: the entry is present (no mapping miss), it merely holds no extracted
picture, and `map_covers` returns normally so the run continues. -/
theorem c4_failed_extraction_mapping (eo : Seg → Bool) (tn : Seg → Seg)
    (info : TTree) (c : Seg) (hc : c ∈ (coverScan info).2)
    (hfail : eo c = false) :
    ("ERROR: Could not extract cover art from " ++ pyStr (.vPath c) ++ "!") ∈
      (mapCovers eo tn info).1 ∧
    lookupA (mapCovers eo tn info).2 c = some (tn c) := by
  unfold mapCovers
  cases hsc : coverScan info with
  | mk ret ext =>
      rw [hsc] at hc
      exact ⟨coverExtract_err_reported eo tn ext ([], ret) c hc hfail,
        coverExtract_mem eo tn ext ([], ret) c hc⟩

/-- Witness for C4 (amended) at the concrete one-track tree whose cover
is `/c/x.flac` and an always-failing extractor. -/
theorem c4_failed_extraction_mapping_witness :
    ("ERROR: Could not extract cover art from " ++
        pyStr (.vPath ["/", "c", "x.flac"]) ++ "!") ∈
      (mapCovers (fun _ => false) (fun _ => ["/", "tmp", "covers", "t1"])
        [(MValue.vNone, [(MValue.vNone,
          [(1, [("COVER", MValue.vPath ["/", "c", "x.flac"])])])])]).1 ∧
    lookupA (mapCovers (fun _ => false) (fun _ => ["/", "tmp", "covers", "t1"])
        [(MValue.vNone, [(MValue.vNone,
          [(1, [("COVER", MValue.vPath ["/", "c", "x.flac"])])])])]).2
      ["/", "c", "x.flac"] = some ["/", "tmp", "covers", "t1"] :=
  c4_failed_extraction_mapping (fun _ => false)
    (fun _ => ["/", "tmp", "covers", "t1"])
    [(MValue.vNone, [(MValue.vNone,
      [(1, [("COVER", MValue.vPath ["/", "c", "x.flac"])])])])]
    ["/", "c", "x.flac"] (by decide) rfl

theorem selectLoc_discnumber_eq (st : St) (value : String) :
    selectLoc st "DISCNUMBER" value =
      match getKeyErr st.global_meta "ALBUM" with
      | .error e => .error e
      | .ok a =>
          if pyIsDigit value then .ok (a, .vNat (toNatD value))
          else .error ("DISCNUMBER ('" ++ value ++ "') must be an integer") :=
  rfl

theorem applyKV_discnumber_eq (env : ParseEnv) (value : String) (dst : Meta) :
    applyKV env "DISCNUMBER" value dst =
      if value = "" ∧ (lookupA dst "DISCNUMBER").isSome then
        .ok (eraseA dst "DISCNUMBER")
      else if pyIsDigit value then
        .ok (setA dst "DISCNUMBER" (.vNat (toNatD value)))
      else .error ("DISCNUMBER ('" ++ value ++ "') must be an integer") :=
  rfl

theorem processLine_badDisc (env : ParseEnv) (st : St) (l : String)
    (hb : badDiscLine l) : ∃ e, processLine env st l = .error e := by
  obtain ⟨k, oi, v, hre, hkey, hne, hdig⟩ := hb
  have hnb : ¬ pyRstrip l = "" := by
    intro hblank
    rw [hblank] at hre
    rw [show parseLineRE "" = none from rfl] at hre
    exact Option.noConfusion hre
  unfold processLine
  rw [if_neg hnb, hre]
  dsimp only
  cases oi with
  | some ds =>
      dsimp only
      rw [hkey, selectLoc_discnumber_eq]
      cases hga : getKeyErr st.global_meta "ALBUM" with
      | error e => exact ⟨e, rfl⟩
      | ok a =>
          dsimp only
          rw [if_neg (by rw [hdig]; exact fun hc => Bool.noConfusion hc)]
          exact ⟨_, rfl⟩
  | none =>
      dsimp only
      rw [hkey, applyKV_discnumber_eq, if_neg (fun hc => hne hc.1),
        if_neg (by rw [hdig]; exact fun hc => Bool.noConfusion hc)]
      exact ⟨_, rfl⟩

theorem processLines_badDisc (env : ParseEnv) (lines : List String) (st : St)
    (hb : ∃ l ∈ lines, badDiscLine l) :
    ∃ e, processLines env st lines = .error e := by
  induction lines generalizing st with
  | nil =>
      obtain ⟨l, hl, -⟩ := hb
      exact absurd hl (List.not_mem_nil l)
  | cons l ls ih =>
      cases hp : processLine env st l with
      | error e =>
          refine ⟨e, ?_⟩
          unfold processLines
          rw [hp]
      | ok st1 =>
          obtain ⟨l', hl', hbad⟩ := hb
          rcases List.mem_cons.mp hl' with rfl | hmem
          · obtain ⟨e, he⟩ := processLine_badDisc env st l' hbad
            rw [hp] at he
            exact Except.noConfusion he
          · obtain ⟨e, he⟩ := ih st1 ⟨l', hmem, hbad⟩
            refine ⟨e, ?_⟩
            unfold processLines
            rw [hp]
            dsimp only
            exact he

/-- Claim C5 (amended).  If any manifest line assigns `DISCNUMBER` a
non-empty, non-digit value (at either scope), then the `main` pipeline's
parse step fails with a fatal error — but only after
`resolve_trackinfo_inputs` has run: `mainSteps` always performs the
archive-resolution actions of its first component before the parse
outcome in its second, so the abort does not precede input resolution
(see the counterexample, where the action list is non-empty). -/
theorem c5_fatal_after_resolution (tiParent : Seg) (resolvePath : Seg → Seg)
    (fs : FS) (lines : List String) (hb : ∃ l ∈ lines, badDiscLine l) :
    ∃ e, (mainSteps tiParent resolvePath fs lines).2 = .error e := by
  unfold mainSteps
  cases hri : resolveTrackinfoInputs tiParent resolvePath fs lines with
  | mk inputMap acts =>
      obtain ⟨e, he⟩ := processLines_badDisc
        { tiParent := tiParent, resolvePath := resolvePath,
          inputMap := inputMap } lines initSt hb
      refine ⟨e, ?_⟩
      simp only [parseTrackinfoMeta, he, Except.map]

/-- Witness for C5 (amended) on the manifest `DISCNUMBER=abc` (with the
counterexample's filesystem oracle). -/
theorem c5_fatal_after_resolution_witness :
    ∃ e, (mainSteps ["/", "m"] id c5fs ["DISCNUMBER=abc"]).2 = .error e :=
  c5_fatal_after_resolution ["/", "m"] id c5fs ["DISCNUMBER=abc"]
    ⟨"DISCNUMBER=abc", List.mem_singleton.mpr rfl,
      "DISCNUMBER", none, "abc", rfl, rfl, by decide, rfl⟩

theorem findTrackFile_none (num : Nat) (l : List String)
    (h : ∀ f ∈ l, parseTrackNum f ≠ some num) : findTrackFile num l = none := by
  induction l with
  | nil => rfl
  | cons f fs ih =>
      unfold findTrackFile
      cases hf : parseTrackNum f with
      | none => exact ih (fun g hg => h g (List.mem_cons_of_mem f hg))
      | some m =>
          have hne : m ≠ num := by
            intro hc
            exact h f (List.mem_cons_self f fs) (hc ▸ hf)
          dsimp only
          rw [if_neg hne]
          exact ih (fun g hg => h g (List.mem_cons_of_mem f hg))

/-- Claim C6 (amended).  For a track whose resolved `INPUT` directory
contains no entry whose first embedded integer (before the
case-insensitive `.flac` extension) equals the track number, `map_tracks`
fails with the fatal message `"Could not find file for track " ++
track_id_to_string(album, disc, num)` — with the *default* padding
widths 0, i.e. the disc and track numbers are printed unpadded, not
padded to the widths `calc_padding` computes; the album is quoted when
truthy and the disc part appears when the disc is truthy. -/
theorem c6_missing_file_error (dirList : Seg → List String) (a d : MValue)
    (n : Nat) (tags : Meta) (p : Seg)
    (hin : lookupA tags "INPUT" = some (.vPath p))
    (hnone : ∀ f ∈ dirList p, parseTrackNum f ≠ some n) :
    mapTracks dirList [(a, [(d, [(n, tags)])])] =
      .error ("Could not find file for track " ++ trackIdToString a d n 0 0) := by
  have h1 : mapTracksTracks dirList a d [(n, tags)] =
      .error ("Could not find file for track " ++ trackIdToString a d n 0 0) := by
    unfold mapTracksTracks
    rw [hin]
    dsimp only
    rw [findTrackFile_none n (dirList p) hnone]
  have h2 : mapTracksDiscs dirList a [(d, [(n, tags)])] =
      .error ("Could not find file for track " ++ trackIdToString a d n 0 0) := by
    unfold mapTracksDiscs
    rw [h1]
  unfold mapTracks
  rw [h2]

/-- Witness for C6 (amended): album "A", disc 1, track 5 with only
`10.flac` in its directory produces the unpadded message. -/
theorem c6_missing_file_error_witness :
    mapTracks (fun _ => ["10.flac"])
      [(MValue.vStr "A", [(MValue.vNat 1,
        [(5, [("INPUT", MValue.vPath ["/", "d"])])])])] =
      .error ("Could not find file for track " ++
        trackIdToString (MValue.vStr "A") (MValue.vNat 1) 5 0 0) :=
  c6_missing_file_error (fun _ => ["10.flac"]) (MValue.vStr "A")
    (MValue.vNat 1) 5 [("INPUT", MValue.vPath ["/", "d"])] ["/", "d"]
    rfl (by decide)

/-- Claim C7.  (1) A global (non-indexed) manifest line never changes the
track tree: already-declared track records are left untouched, so later
global assignments cannot retroactively affect them.  (2) When a track's
first line is processed (its slot is still empty), the stored record is
obtained by applying the line's own override to a value copy of the
*current* global scope extended with the track's `TRACKNUMBER` — the
snapshot-at-declaration-time semantics. -/
theorem c7_snapshot_semantics :
    (∀ (env : ParseEnv) (st : St) (line k v : String) (st' : St),
      parseLineRE (pyRstrip line) = some (k, none, v) →
      processLine env st line = .ok st' →
      st'.track_meta = st.track_meta) ∧
    (∀ (env : ParseEnv) (st : St) (line k ds v : String) (st' : St)
      (a d : MValue),
      parseLineRE (pyRstrip line) = some (k, some ds, v) →
      selectLoc st (upperStr k) (pyStrip v) = .ok (a, d) →
      treeGet st.track_meta a d (toNatD ds) = none →
      processLine env st line = .ok st' →
      ∃ r, applyKV env (upperStr k) (pyStrip v)
          (setA st.global_meta "TRACKNUMBER" (.vNat (toNatD ds))) = .ok r ∧
        treeGet st'.track_meta a d (toNatD ds) = some r) := by
  constructor
  · intro env st line k v st' hre h
    unfold processLine at h
    split at h
    · cases h; rfl
    · split at h
      · exact Except.noConfusion h
      · rename_i k0 idx0 v0 heq0
        rw [hre] at heq0
        simp only [Option.some.injEq, Prod.mk.injEq] at heq0
        obtain ⟨rfl, hidx, rfl⟩ := heq0
        split at h
        · rename_i ds0
          exact Option.noConfusion hidx
        · split at h
          · exact Except.noConfusion h
          · rename_i g' hap
            cases h
            rfl
  · intro env st line k ds v st' a d hre hsel' hget h
    unfold processLine at h
    split at h
    · rename_i hblank
      rw [hblank, show parseLineRE "" = none from rfl] at hre
      exact Option.noConfusion hre
    · split at h
      · exact Except.noConfusion h
      · rename_i k0 idx0 v0 heq0
        rw [hre] at heq0
        simp only [Option.some.injEq, Prod.mk.injEq] at heq0
        obtain ⟨rfl, hidx, rfl⟩ := heq0
        split at h
        · rename_i ds0
          obtain rfl : ds = ds0 := Option.some.inj hidx
          split at h
          · exact Except.noConfusion h
          · rename_i ad hsel
            rw [hsel'] at hsel
            have had : ad = (a, d) := (Except.ok.inj hsel).symm
            subst had
            split at h
            · exact Except.noConfusion h
            · rename_i dst' hap
              cases h
              dsimp only at hap
              rw [hget] at hap
              refine ⟨dst', hap, ?_⟩
              rw [treeGet_treeSet, if_pos ⟨rfl, rfl, rfl⟩]
        · exact Option.noConfusion hidx

/-- Witness for C7: the global line `ALBUM=Y` leaves `stW`'s tree
unchanged, and the first track line `TITLE[1]=A` stores the snapshot of
the initial global scope plus `TRACKNUMBER` with the `TITLE` override. -/
theorem c7_snapshot_semantics_witness :
    stW3.track_meta = stW.track_meta ∧
    (∃ r, applyKV envC "TITLE" "A"
        (setA initSt.global_meta "TRACKNUMBER" (.vNat 1)) = .ok r ∧
      treeGet stC7.track_meta MValue.vNone MValue.vNone 1 = some r) :=
  ⟨c7_snapshot_semantics.1 envC stW "ALBUM=Y" "ALBUM" "Y" stW3 rfl rfl,
   c7_snapshot_semantics.2 envC initSt "TITLE[1]=A" "TITLE" "1" "A" stC7
     MValue.vNone MValue.vNone rfl rfl rfl rfl⟩

/-- Claim C8.  For a record carrying `ALBUM` and `DISCNUMBER` entries (a
named or `None` album, a numeric or `None` disc), a numeric
`TRACKNUMBER`, and string `TITLE`/`ARTIST` fields when present,
`gen_output_path` produces exactly
`out_dir / album_dir / sanitize(replaceSlashes(claimFilename) + ".flac")`:
every "/" in the computed name is replaced by "_" and the fixed `.flac`
extension is appended before the sanitizer (`truncate_filename`) runs,
and `album_dir` is the album with "/" replaced by "_", or the fixed
unknown-album name when the album is `None`. -/
theorem c8_filename_format (tags : Meta) (outDir : Seg) (dp tp n : Nat)
    (aOpt : Option String) (discOpt : Option Nat) (tOpt arOpt : Option String)
    (hA : lookupA tags "ALBUM" =
      some (match aOpt with | some s => MValue.vStr s | none => MValue.vNone))
    (hD : lookupA tags "DISCNUMBER" =
      some (match discOpt with | some m => MValue.vNat m | none => MValue.vNone))
    (hT : lookupA tags "TRACKNUMBER" = some (MValue.vNat n))
    (hTi : lookupA tags "TITLE" = tOpt.map MValue.vStr)
    (hAr : lookupA tags "ARTIST" = arOpt.map MValue.vStr) :
    genOutputPath tags outDir dp tp =
      (truncateFilename
        (slashToUnderscore (claimFilename discOpt dp n tp tOpt arOpt) ++ ".flac")
        255).map
        (fun f => joinP (joinP outDir (strToPath
          (match aOpt with
           | some s => slashToUnderscore s
           | none => UNKNOWN_ALBUM_NAME))) f) := by
  unfold genOutputPath
  rw [hA]
  cases aOpt <;> cases discOpt <;>
    (dsimp only
     rw [hD]
     dsimp only
     rw [hT]
     dsimp only
     rw [hTi, hAr]
     cases tOpt <;> cases arOpt <;>
       (dsimp only [Option.map, pyStr, claimFilename, discTrack]
        cases truncateFilename _ 255 <;> rfl))

/-- Witness for C8 at a concrete record with a slash in the album and
title/artist both present. -/
theorem c8_filename_format_witness :
    genOutputPath
        [("ALBUM", MValue.vStr "Te/st"), ("DISCNUMBER", MValue.vNat 1),
         ("TRACKNUMBER", MValue.vNat 2), ("TITLE", MValue.vStr "A"),
         ("ARTIST", MValue.vStr "B")] ["/", "out"] 2 3 =
      (truncateFilename
        (slashToUnderscore (claimFilename (some 1) 2 2 3 (some "A") (some "B"))
          ++ ".flac") 255).map
        (fun f => joinP (joinP ["/", "out"]
          (strToPath (slashToUnderscore "Te/st"))) f) :=
  c8_filename_format
    [("ALBUM", MValue.vStr "Te/st"), ("DISCNUMBER", MValue.vNat 1),
     ("TRACKNUMBER", MValue.vNat 2), ("TITLE", MValue.vStr "A"),
     ("ARTIST", MValue.vStr "B")] ["/", "out"] 2 3 2
    (some "Te/st") (some 1) (some "A") (some "B") rfl rfl rfl rfl rfl

theorem lastPart_append (parent : Seg) (h : String) :
    lastPart (parent ++ [h]) = h := by
  simp [lastPart]

theorem lookupA_consKey (c : String) (l : List (Seg × Seg)) (k : Seg) :
    lookupA (l.map (fun e => (c :: e.1, e.2))) (c :: k) = lookupA l k := by
  induction l with
  | nil => rfl
  | cons e t ih => simp [lookupA, ih]

theorem expandAux_singleton (fs : FS) (p : Seg) :
    ∀ (fuel : Nat), p ≠ [] → p.length ≤ fuel → ∀ parent : Seg,
      lookupA (expandAux fs fuel [p] parent).1 p =
        some (resolveSeq fs parent p) := by
  induction p with
  | nil => intro fuel hne; exact absurd rfl hne
  | cons h rest ih =>
      intro fuel hne hlen parent
      cases fuel with
      | zero => simp at hlen
      | succ f =>
          by_cases harch : isArchiveAt fs (parent ++ [h]) = true
          · cases rest with
            | nil =>
                simp [expandAux, groupHeads, addSet, upsertA, lookupA, harch,
                  lastPart_append, resolveSeq]
            | cons r rs =>
                have hrec := ih f (by simp) (by simpa using Nat.le_of_succ_le_succ hlen)
                  (archiveEffective fs (parent ++ [h]))
                simp only [expandAux, groupHeads, addSet, upsertA, harch,
                  lastPart_append, List.foldl_cons, List.foldl_nil,
                  List.map_cons, List.map_nil, List.mem_singleton,
                  List.nil_append, List.append_nil, if_true, if_pos rfl]
                simp only [List.filter, decide_not]
                simp [lookupA_consKey, hrec, resolveSeq, harch, lastPart_append]
          · cases rest with
            | nil =>
                simp [expandAux, groupHeads, addSet, upsertA, lookupA, harch,
                  lastPart_append, resolveSeq]
            | cons r rs =>
                have hrec := ih f (by simp) (by simpa using Nat.le_of_succ_le_succ hlen)
                  (parent ++ [h])
                simp only [expandAux, groupHeads, addSet, upsertA, harch,
                  lastPart_append, List.foldl_cons, List.foldl_nil,
                  List.map_cons, List.map_nil, List.mem_singleton,
                  List.nil_append, List.append_nil, if_false]
                simp only [List.filter, decide_not]
                simp [lookupA_consKey, hrec, resolveSeq, harch, lastPart_append]

/-- Claim C9.  For every non-empty declared path `p`,
`expand_archives_in_tree` maps `p` to its straight-line resolution
`resolveSeq`: each archive segment is replaced by its effective root
(the sole contained directory when the extraction result is exactly one
directory, else the extraction root), a non-archive segment maps to
itself, a path with no remaining segments maps directly to its effective
directory, and recursion into the remaining segments is rooted at the
effective directory. -/
theorem c9_archive_resolution (fs : FS) (p : Seg) (hp : p ≠ []) :
    lookupA (expandArchivesInTree fs [p] []).1 p =
      some (resolveSeq fs [] p) := by
  apply expandAux_singleton fs p (sumLen [p] + 1) hp
  simp [sumLen]

/-- Witness for C9: a two-segment path through an archive that collapses
to its single inner directory. -/
theorem c9_archive_resolution_witness :
    lookupA (expandArchivesInTree
      { isFile := fun p => p = ["/", "m", "a.zip"],
        isDir := fun p => p = ["/", "tmp", "e1", "inner"],
        extractRoot := fun _ => ["/", "tmp", "e1"],
        entries := fun p => if p = ["/", "tmp", "e1"] then ["inner"] else [] }
      [["/", "m", "a.zip", "sub"]] []).1 ["/", "m", "a.zip", "sub"] =
      some (resolveSeq
        { isFile := fun p => p = ["/", "m", "a.zip"],
          isDir := fun p => p = ["/", "tmp", "e1", "inner"],
          extractRoot := fun _ => ["/", "tmp", "e1"],
          entries := fun p => if p = ["/", "tmp", "e1"] then ["inner"] else [] }
        [] ["/", "m", "a.zip", "sub"]) :=
  c9_archive_resolution
    { isFile := fun p => p = ["/", "m", "a.zip"],
      isDir := fun p => p = ["/", "tmp", "e1", "inner"],
      extractRoot := fun _ => ["/", "tmp", "e1"],
      entries := fun p => if p = ["/", "tmp", "e1"] then ["inner"] else [] }
    ["/", "m", "a.zip", "sub"] (by decide)
